import Mathlib

/-!
Verification of the Vercel deployment-summary GitHub Action.

The development shallowly embeds the JavaScript source: the renderer
`generateCommentBody`, the locator `findExistingComment`, the input
validation performed by `run`, and the orchestration of `run` itself
(modelled as a pure function from an environment record describing the
inputs and the outcomes of the external API calls to the run outcome,
the list of API calls issued, and the log lines printed).

JavaScript conventions are modelled explicitly: an absent object field is
`none`, string falsiness (absent or empty) is `jsTruthy`, and the string
methods used by the source (`startsWith`, `toLowerCase`, `replace` with a
string pattern, template concatenation) are given as `js`-prefixed
definitions on Lean strings.
-/

namespace VercelSummary

/-- A deployment record as supplied in the `deployments` JSON input.
An absent field of the parsed JavaScript object is `none`. -/
structure Deployment where
  name : Option String
  status : Option String
  url : Option String
deriving DecidableEq

/-- Ambient GitHub Actions context read by the renderer:
`context.sha` and `context.ref`. -/
structure GitHubContext where
  sha : String
  ref : String
deriving DecidableEq

/-- JavaScript truthiness of an optional string field:
`undefined` and the empty string are falsy. -/
def jsTruthy : Option String → Bool
  | none => false
  | some s => s ≠ ""

/-- JavaScript `v || dflt` on an optional string field. -/
def jsOr (v : Option String) (dflt : String) : String :=
  if jsTruthy v then v.getD dflt else dflt

/-- JavaScript `s.startsWith(pat)`. -/
def jsStartsWith (s pat : String) : Bool :=
  pat.data.isPrefixOf s.data

/-- JavaScript `s.toLowerCase()` (simple case mapping, adequate for the
ASCII status words compared by the source). -/
def jsToLower (s : String) : String :=
  ⟨s.data.map Char.toLower⟩

/-- Replacement of the first occurrence of `pat` in a character list. -/
def replaceFirstAux (pat repl : List Char) : List Char → List Char
  | [] => if pat.isEmpty then repl else []
  | c :: rest =>
    if pat.isPrefixOf (c :: rest) then repl ++ (c :: rest).drop pat.length
    else c :: replaceFirstAux pat repl rest

/-- JavaScript `s.replace(pat, repl)` with a string pattern: only the
first occurrence is replaced. -/
def jsReplaceFirst (s pat repl : String) : String :=
  ⟨replaceFirstAux pat.data repl.data s.data⟩

/-- JavaScript `s.substring(0, n)`. -/
def jsSubstringTo (s : String) (n : Nat) : String :=
  ⟨s.data.take n⟩

/-- Occurrence of `pat` as a contiguous run inside `l`. -/
def listContains : List Char → List Char → Bool
  | [], pat => pat.isEmpty
  | c :: rest, pat => pat.isPrefixOf (c :: rest) || listContains rest pat

/-- JavaScript `s.includes(pat)`. -/
def jsIncludes (s pat : String) : Bool :=
  listContains s.data pat.data

/-- Line 8 of the source: the environment emoji used by the renderer. -/
def rendererEnvEmoji (environment : String) : String :=
  if environment = "production" then "🚀" else "🔍"

/-- Line 9 of the source: the environment display name used by the renderer. -/
def rendererEnvName (environment : String) : String :=
  if environment = "production" then "Production" else "Preview"

/-- Line 13 of the source: the header emitted by `generateCommentBody`. -/
def rendererHeader (environment : String) : String :=
  "## " ++ rendererEnvEmoji environment ++ " Vercel " ++ rendererEnvName environment ++ " Deployments"

/-- Line 14 of the source: the metadata line `branch • sha`, where `sha`
is the `commit-sha` input when truthy and otherwise the ambient SHA
truncated to 7 characters, and `branch` strips a leading `refs/heads/`. -/
def metadataText (commitSha : String) (ctx : GitHubContext) : String :=
  jsReplaceFirst ctx.ref "refs/heads/" "" ++ " • "
    ++ (if commitSha = "" then jsSubstringTo ctx.sha 7 else commitSha)

/-- Line 36 of the source: the fixed footer appended to every body. -/
def footerText : String :=
  "---\n\n<sub>Deployed with [Vercel](https://vercel.com)</sub>"

/-- Lines 19 to 33 of the source: the text appended to `body` for one
deployment. `none` models the TypeError thrown on an absent `status`;
an unrecognized status appends nothing. -/
def deploymentSection (d : Deployment) : Option String :=
  let name := jsOr d.name "App"
  match d.status with
  | none => none
  | some st =>
    let status := jsToLower st
    if status = "building" then
      some ("### ⏳ " ++ name ++ "\n**Building...**\n\n")
    else if status = "failed" then
      some ("### ❌ " ++ name ++ "\n**Deployment Failed**\n\n")
    else if status = "successful" then
      if jsTruthy d.url then
        some ("### ✅ " ++ name ++ "\n🔗 **[Visit Deployment](" ++ d.url.getD "" ++ ")**\n\n")
      else
        some ("### ✅ " ++ name ++ "\n**Deployment Successful**\n\n")
    else
      some ""

/-- The `forEach` loop of lines 19 to 34: concatenation of the sections
in input order, `none` when any deployment makes the loop throw. -/
def renderSections : List Deployment → Option String
  | [] => some ""
  | d :: rest =>
    match deploymentSection d, renderSections rest with
    | some s, some t => some (s ++ t)
    | _, _ => none

/-- Lines 7 to 39 of the source: `generateCommentBody`. `none` models
the TypeError thrown when some deployment lacks a `status`. -/
def generateCommentBody (deployments : List Deployment) (environment : String)
    (commitSha : String) (ctx : GitHubContext) : Option String :=
  match renderSections deployments with
  | none => none
  | some sections =>
    some (rendererHeader environment ++ "\n\n" ++ metadataText commitSha ctx ++ "\n\n"
      ++ sections ++ footerText)

/-- An existing pull-request comment as returned by `listComments`:
`body` is `none` when the field is null or absent. -/
structure IssueComment where
  id : Nat
  body : Option String
deriving DecidableEq

/-- Line 58 of the source: the environment emoji recomputed by the locator. -/
def locatorEnvEmoji (environment : String) : String :=
  if environment = "production" then "🚀" else "🔍"

/-- Line 59 of the source: the environment display name recomputed by the locator. -/
def locatorEnvName (environment : String) : String :=
  if environment = "production" then "Production" else "Preview"

/-- Line 60 of the source: the search pattern used by `findExistingComment`. -/
def locatorSearchPattern (environment : String) : String :=
  "## " ++ locatorEnvEmoji environment ++ " Vercel " ++ locatorEnvName environment ++ " Deployments"

/-- Line 63 of the source: `comment.body?.startsWith(searchPattern)`. -/
def commentMatches (pat : String) (c : IssueComment) : Bool :=
  match c.body with
  | some b => jsStartsWith b pat
  | none => false

/-- Lines 44 to 68 of the source: `findExistingComment`. The argument is
the outcome of the `listComments` API call, `.error` modelling a thrown
fetch failure, caught at line 64. Returns the located comment (if any)
together with the log lines emitted. -/
def findExistingComment (fetchResult : Except String (List IssueComment))
    (environment : String) : Option IssueComment × List String :=
  match fetchResult with
  | .error m => (none, ["Could not fetch existing comments: " ++ m])
  | .ok comments =>
    (comments.find? (commentMatches (locatorSearchPattern environment)), [])

/-- Line 120 of the source: the accepted status values. -/
def validStatuses : List String :=
  ["building", "failed", "successful"]

/-- Lines 109 to 128 of the source: validation of the deployment at
position `index`, with the exact error messages thrown. -/
def validateDeployment (index : Nat) (d : Deployment) : Except String Unit :=
  if !jsTruthy d.name then
    .error ("Deployment at index " ++ toString index ++ " missing required field: name")
  else if !jsTruthy d.status then
    .error ("Deployment at index " ++ toString index ++ " missing required field: status")
  else if !(validStatuses.contains (jsToLower (d.status.getD ""))) then
    .error ("Deployment \"" ++ d.name.getD "" ++ "\" has invalid status: "
      ++ d.status.getD "" ++ ". Must be one of: " ++ String.intercalate ", " validStatuses)
  else
    .ok ()

/-- The `forEach` validation loop of lines 109 to 128, starting at
position `i`: the first failing deployment throws. -/
def validateDeployments : List Deployment → Nat → Except String Unit
  | [], _ => .ok ()
  | d :: rest, i =>
    match validateDeployment i d with
    | .error m => .error m
    | .ok _ => validateDeployments rest (i + 1)

/-- The shape of the value produced by `JSON.parse` on the `deployments`
input, as far as `run` inspects it: either not an array, or an array of
deployment records. -/
inductive ParsedDeployments where
  | nonArray
  | arr (ds : List Deployment)
deriving DecidableEq

/-- A call issued against the issue-comment REST API. -/
inductive ApiCall where
  | listComments (owner repo : String) (issueNumber : Nat)
  | createComment (owner repo : String) (issueNumber : Nat) (body : String)
  | updateComment (owner repo : String) (commentId : Nat) (body : String)
deriving DecidableEq

/-- The final outcome of `run`: a normal return, or `setFailed` with the
given message. -/
inductive RunOutcome where
  | success
  | failed (message : String)
deriving DecidableEq

/-- The inputs and ambient context consumed by `run`, together with the
responses of the external API. `deploymentsInput` is the outcome of
`JSON.parse` on the `deployments` input (line 99), `.error` modelling a
parse exception. `environmentInput` is `getInput("environment")`, the
empty string when unset. `listCommentsResult` and `writeResult` are the
outcomes of the corresponding API calls. -/
structure RunEnv where
  deploymentsInput : Except String ParsedDeployments
  environmentInput : String
  commitShaInput : String
  pullRequest : Option Nat
  owner : String
  repo : String
  ctx : GitHubContext
  listCommentsResult : Except String (List IssueComment)
  writeResult : Except String Unit

/-- What `run` produced: the outcome, the API calls issued in order, and
the `info` log lines in order. -/
structure RunResult where
  outcome : RunOutcome
  apiCalls : List ApiCall
  logs : List String
deriving DecidableEq

/-- Lines 73 to 175 of the source: `run`, with the ambient platform
context and the external API supplied through `env`. The unreadable
TypeError branch after validation is kept for totality only; validation
guarantees it is never taken. -/
def run (env : RunEnv) : RunResult :=
  let environment := if env.environmentInput = "" then "preview" else env.environmentInput
  let logs0 := ["Running Nexus Vercel Summary action", "Environment: " ++ environment]
  match env.pullRequest with
  | none => ⟨.success, [], logs0 ++ ["Not a pull request event, skipping comment"]⟩
  | some prNumber =>
    let logs1 := logs0 ++ ["PR Number: " ++ toString prNumber,
      "Repository: " ++ env.owner ++ "/" ++ env.repo]
    match env.deploymentsInput with
    | .error m => ⟨.failed ("Action failed: Invalid deployments JSON: " ++ m), [], logs1⟩
    | .ok .nonArray => ⟨.failed "Action failed: deployments must be a non-empty array", [], logs1⟩
    | .ok (.arr deployments) =>
      if deployments.isEmpty then
        ⟨.failed "Action failed: deployments must be a non-empty array", [], logs1⟩
      else
        match validateDeployments deployments 0 with
        | .error m => ⟨.failed ("Action failed: " ++ m), [], logs1⟩
        | .ok _ =>
          let logs2 := logs1 ++ ["Processing " ++ toString deployments.length ++ " deployment(s)"]
          match generateCommentBody deployments environment env.commitShaInput env.ctx with
          | none =>
            ⟨.failed "Action failed: Cannot read properties of undefined (reading toLowerCase)",
              [], logs2⟩
          | some commentBody =>
            let located := findExistingComment env.listCommentsResult environment
            let logs3 := logs2 ++ located.2
            let calls0 := [ApiCall.listComments env.owner env.repo prNumber]
            match located.1 with
            | some existing =>
              let logs4 := logs3 ++ ["Updating existing comment (ID: " ++ toString existing.id ++ ")"]
              let calls := calls0 ++ [ApiCall.updateComment env.owner env.repo existing.id commentBody]
              match env.writeResult with
              | .ok _ => ⟨.success, calls, logs4 ++ ["Comment updated successfully!"]⟩
              | .error m => ⟨.failed ("Action failed: " ++ m), calls, logs4⟩
            | none =>
              let logs4 := logs3 ++ ["Creating new comment"]
              let calls := calls0 ++ [ApiCall.createComment env.owner env.repo prNumber commentBody]
              match env.writeResult with
              | .ok _ => ⟨.success, calls, logs4 ++ ["Comment created successfully!"]⟩
              | .error m => ⟨.failed ("Action failed: " ++ m), calls, logs4⟩

/-- A deployment that passes the per-record validation of lines 109 to
128: truthy `name`, truthy `status`, and a lowercased status among
`validStatuses`. -/
def ValidDeployment (d : Deployment) : Prop :=
  jsTruthy d.name = true ∧ jsTruthy d.status = true ∧
    validStatuses.contains (jsToLower (d.status.getD "")) = true

/-- The glyph of the subsection heading a validated deployment receives. -/
def statusGlyph (d : Deployment) : String :=
  let status := jsToLower (d.status.getD "")
  if status = "building" then "⏳" else if status = "failed" then "❌" else "✅"

/-- The detail line of the subsection a validated deployment receives. -/
def sectionDetail (d : Deployment) : String :=
  let status := jsToLower (d.status.getD "")
  if status = "building" then "**Building...**"
  else if status = "failed" then "**Deployment Failed**"
  else if jsTruthy d.url then "🔗 **[Visit Deployment](" ++ d.url.getD "" ++ ")**"
  else "**Deployment Successful**"

/-- The heading line of the subsection a validated deployment receives. -/
def sectionHead (d : Deployment) : String :=
  "### " ++ statusGlyph d ++ " " ++ jsOr d.name "App"

/-- The whole subsection block a validated deployment receives:
specialization of `deploymentSection` to validated records. -/
def sectionText (d : Deployment) : String :=
  sectionHead d ++ "\n" ++ sectionDetail d ++ "\n\n"

/-- Concatenation of the subsection blocks of a list of validated
deployments, in input order. -/
def joinedSections (ds : List Deployment) : String :=
  (ds.map sectionText).foldr (· ++ ·) ""

/-- Two optional status fields that are different-cased spellings of the
same word. -/
def statusCaseVariant : Option String → Option String → Prop
  | none, none => True
  | some s₁, some s₂ => jsToLower s₁ = jsToLower s₂
  | _, _ => False

/-- Two deployments that differ at most in the casing of their status. -/
def deploymentCaseVariant (d₁ d₂ : Deployment) : Prop :=
  d₁.name = d₂.name ∧ d₁.url = d₂.url ∧ statusCaseVariant d₁.status d₂.status

/-- A comment whose body is present and starts with the search pattern
of `environment`. -/
def MatchedBy (environment : String) (c : IssueComment) : Prop :=
  ∃ b, c.body = some b ∧ jsStartsWith b (locatorSearchPattern environment) = true

/-- Concrete sample deployment list used by witnesses. -/
def wDeployments : List Deployment :=
  [⟨some "Frontend", some "successful", some "https://f.example"⟩,
   ⟨some "API", some "building", none⟩,
   ⟨some "Docs", some "failed", none⟩]

/-- Concrete sample ambient context used by witnesses. -/
def sampleContext : GitHubContext :=
  ⟨"0a1b2c3d4e5f60718293a4b5c6d7e8f901234567", "refs/heads/main"⟩

/-- Concrete run environment with no associated pull request. -/
def sampleEnvNoPR : RunEnv :=
  ⟨.ok (.arr wDeployments), "", "", none, "uw-datasci", "nexus", sampleContext, .ok [], .ok ()⟩

/-- Concrete run environment whose deployments input failed to parse. -/
def sampleEnvBadJson : RunEnv :=
  ⟨.error "Unexpected token", "", "", some 5, "uw-datasci", "nexus", sampleContext, .ok [], .ok ()⟩

/-! Helper lemmas shared by the claim theorems. -/

lemma isPrefixOf_eq_true_iff (p : List Char) : ∀ l, p.isPrefixOf l = true ↔ ∃ t, l = p ++ t := by
  intro l
  rw [List.isPrefixOf_iff_prefix]
  constructor
  · rintro ⟨t, rfl⟩; exact ⟨t, rfl⟩
  · rintro ⟨t, rfl⟩; exact ⟨t, rfl⟩

lemma isPrefixOf_append_self (p t : List Char) : p.isPrefixOf (p ++ t) = true :=
  (isPrefixOf_eq_true_iff p (p ++ t)).mpr ⟨t, rfl⟩

lemma jsStartsWith_append (a b : String) : jsStartsWith (a ++ b) a = true := by
  unfold jsStartsWith
  rw [String.data_append]
  exact isPrefixOf_append_self _ _

lemma jsStartsWith_iff (s p : String) :
    jsStartsWith s p = true ↔ ∃ t, s.data = p.data ++ t := by
  unfold jsStartsWith
  exact isPrefixOf_eq_true_iff _ _

lemma find?_first {α : Type} (p : α → Bool) :
    ∀ (l : List α) (c : α), l.find? p = some c →
      p c = true ∧ ∃ pre post, l = pre ++ c :: post ∧ ∀ x ∈ pre, p x = false := by
  intro l
  induction l with
  | nil => intro c h; simp [List.find?] at h
  | cons a l ih =>
    intro c h
    by_cases ha : p a = true
    · rw [List.find?_cons_of_pos _ ha] at h
      injection h with h
      subst h
      exact ⟨ha, [], l, rfl, by simp⟩
    · rw [List.find?_cons_of_neg _ ha] at h
      obtain ⟨hc, pre, post, rfl, hpre⟩ := ih c h
      refine ⟨hc, a :: pre, post, rfl, ?_⟩
      intro x hx
      rcases List.mem_cons.mp hx with rfl | hx
      · simpa using ha
      · exact hpre x hx

lemma validateDeployment_ok_iff (i : Nat) (d : Deployment) :
    validateDeployment i d = .ok () ↔ ValidDeployment d := by
  unfold validateDeployment ValidDeployment
  by_cases h1 : jsTruthy d.name = true
  · by_cases h2 : jsTruthy d.status = true
    · by_cases h3 : validStatuses.contains (jsToLower (d.status.getD "")) = true
      · simp [h1, h2, h3]
      · simp [h1, h2, h3]
    · simp [h1, h2]
  · simp [h1]

lemma validateDeployments_ok_iff :
    ∀ (ds : List Deployment) (i : Nat),
      validateDeployments ds i = .ok () ↔ ∀ d ∈ ds, ValidDeployment d := by
  intro ds
  induction ds with
  | nil => intro i; simp [validateDeployments]
  | cons d rest ih =>
    intro i
    simp only [validateDeployments]
    cases hv : validateDeployment i d with
    | error m =>
      constructor
      · intro h; cases h
      · intro h
        exfalso
        have hok := (validateDeployment_ok_iff i d).mpr (h d (by simp))
        rw [hv] at hok
        cases hok
    | ok u =>
      cases u
      have hd : ValidDeployment d := (validateDeployment_ok_iff i d).mp hv
      rw [ih (i + 1)]
      constructor
      · intro h d' hd'
        rcases List.mem_cons.mp hd' with rfl | hmem
        · exact hd
        · exact h d' hmem
      · intro h d' hd'
        exact h d' (List.mem_cons_of_mem _ hd')

lemma status_cases_of_valid {d : Deployment} (h : ValidDeployment d) :
    jsToLower (d.status.getD "") = "building" ∨ jsToLower (d.status.getD "") = "failed" ∨
      jsToLower (d.status.getD "") = "successful" := by
  obtain ⟨-, -, hmem⟩ := h
  simpa [validStatuses] using hmem

lemma deploymentSection_of_valid (d : Deployment) (h : ValidDeployment d) :
    deploymentSection d = some (sectionText d) := by
  obtain ⟨hn, hs, hmem⟩ := h
  cases hst : d.status with
  | none => rw [hst] at hs; cases hs
  | some st =>
    have hcases := status_cases_of_valid ⟨hn, hs, hmem⟩
    rw [hst] at hcases
    simp only [Option.getD_some] at hcases
    unfold deploymentSection sectionText sectionHead statusGlyph sectionDetail
    rw [hst]
    simp only [Option.getD_some]
    rcases hcases with hlow | hlow | hlow
    · simp only [hlow, String.reduceEq, reduceIte, Option.some.injEq]
      apply String.ext
      simp only [String.data_append, List.append_assoc]
      rfl
    · simp only [hlow, String.reduceEq, reduceIte, Option.some.injEq]
      apply String.ext
      simp only [String.data_append, List.append_assoc]
      rfl
    · simp only [hlow, String.reduceEq, reduceIte, Option.some.injEq]
      by_cases hu : jsTruthy d.url = true
      · simp only [if_pos hu, Option.some.injEq]
        apply String.ext
        simp only [String.data_append, List.append_assoc]
        rfl
      · simp only [if_neg hu, Option.some.injEq]
        apply String.ext
        simp only [String.data_append, List.append_assoc]
        rfl

lemma renderSections_of_valid :
    ∀ (ds : List Deployment), (∀ d ∈ ds, ValidDeployment d) →
      renderSections ds = some (joinedSections ds) := by
  intro ds
  induction ds with
  | nil => intro _; rfl
  | cons d rest ih =>
    intro h
    have hd := h d (by simp)
    have hrest := ih (fun d' hd' => h d' (List.mem_cons_of_mem _ hd'))
    simp only [renderSections, deploymentSection_of_valid d hd, hrest]
    rfl

lemma generateCommentBody_of_valid (ds : List Deployment) (environment commitSha : String)
    (ctx : GitHubContext) (h : ∀ d ∈ ds, ValidDeployment d) :
    generateCommentBody ds environment commitSha ctx =
      some (rendererHeader environment ++ "\n\n" ++ metadataText commitSha ctx ++ "\n\n"
        ++ joinedSections ds ++ footerText) := by
  unfold generateCommentBody
  rw [renderSections_of_valid ds h]

lemma jsStartsWith_of_eq (s a b : String) (h : s = a ++ b) : jsStartsWith s a = true := by
  subst h
  exact jsStartsWith_append a b

lemma commentMatches_eq_true_iff (pat : String) (c : IssueComment) :
    commentMatches pat c = true ↔ ∃ b, c.body = some b ∧ jsStartsWith b pat = true := by
  cases hb : c.body with
  | none => simp [commentMatches, hb]
  | some b => simp [commentMatches, hb]

lemma not_both_headers (b : String)
    (h1 : jsStartsWith b (locatorSearchPattern "production") = true)
    (h2 : jsStartsWith b (locatorSearchPattern "preview") = true) : False := by
  obtain ⟨t1, ht1⟩ := (jsStartsWith_iff _ _).mp h1
  obtain ⟨t2, ht2⟩ := (jsStartsWith_iff _ _).mp h2
  rw [ht1] at ht2
  rcases List.append_eq_append_iff.mp ht2 with ⟨a, ha, -⟩ | ⟨a, ha, -⟩
  · have : (locatorSearchPattern "production").data.isPrefixOf
        (locatorSearchPattern "preview").data = true :=
      (isPrefixOf_eq_true_iff _ _).mpr ⟨a, ha⟩
    have hfalse : (locatorSearchPattern "production").data.isPrefixOf
        (locatorSearchPattern "preview").data = false := by decide
    rw [hfalse] at this
    cases this
  · have : (locatorSearchPattern "preview").data.isPrefixOf
        (locatorSearchPattern "production").data = true :=
      (isPrefixOf_eq_true_iff _ _).mpr ⟨a, ha⟩
    have hfalse : (locatorSearchPattern "preview").data.isPrefixOf
        (locatorSearchPattern "production").data = false := by decide
    rw [hfalse] at this
    cases this

/-- C1: for every validated deployment list and every environment, the
body returned by `generateCommentBody` starts with the exact header for
that environment and decomposes as that header, the metadata line, the
concatenation of exactly one subsection block per input deployment in
input order, and the fixed footer; each block begins with its own
`### glyph name` heading line. -/
theorem render_header_and_ordered_sections
    (ds : List Deployment) (environment commitSha : String) (ctx : GitHubContext)
    (h : validateDeployments ds 0 = .ok ()) :
    generateCommentBody ds environment commitSha ctx =
      some (rendererHeader environment ++ "\n\n" ++ metadataText commitSha ctx ++ "\n\n"
        ++ joinedSections ds ++ footerText)
    ∧ (∀ body, generateCommentBody ds environment commitSha ctx = some body →
        jsStartsWith body (rendererHeader environment) = true)
    ∧ joinedSections ds = (ds.map sectionText).foldr (· ++ ·) ""
    ∧ (∀ d ∈ ds, jsStartsWith (sectionText d) (sectionHead d) = true)
    ∧ rendererHeader "production" = "## 🚀 Vercel Production Deployments"
    ∧ rendererHeader "preview" = "## 🔍 Vercel Preview Deployments" := by
  have hvalid := (validateDeployments_ok_iff ds 0).mp h
  have hbody := generateCommentBody_of_valid ds environment commitSha ctx hvalid
  refine ⟨hbody, ?_, rfl, ?_, rfl, rfl⟩
  · intro body hb
    rw [hbody] at hb
    injection hb with hb
    subst hb
    refine jsStartsWith_of_eq _ _
      ("\n\n" ++ (metadataText commitSha ctx ++ ("\n\n" ++ (joinedSections ds ++ footerText)))) ?_
    simp only [String.append_assoc]
  · intro d _
    refine jsStartsWith_of_eq _ _ ("\n" ++ (sectionDetail d ++ "\n\n")) ?_
    unfold sectionText
    simp only [String.append_assoc]

/-- Witness for C1 at a concrete three-deployment list. -/
theorem render_header_and_ordered_sections_witness :
    validateDeployments wDeployments 0 = .ok ()
    ∧ (generateCommentBody wDeployments "preview" "abc1234" sampleContext =
        some (rendererHeader "preview" ++ "\n\n" ++ metadataText "abc1234" sampleContext ++ "\n\n"
          ++ joinedSections wDeployments ++ footerText)
      ∧ (∀ body, generateCommentBody wDeployments "preview" "abc1234" sampleContext = some body →
          jsStartsWith body (rendererHeader "preview") = true)
      ∧ joinedSections wDeployments = (wDeployments.map sectionText).foldr (· ++ ·) ""
      ∧ (∀ d ∈ wDeployments, jsStartsWith (sectionText d) (sectionHead d) = true)
      ∧ rendererHeader "production" = "## 🚀 Vercel Production Deployments"
      ∧ rendererHeader "preview" = "## 🔍 Vercel Preview Deployments") :=
  ⟨rfl, render_header_and_ordered_sections wDeployments "preview" "abc1234" sampleContext rfl⟩

/-- C2: the header emitted by the renderer coincides, for every
environment, with the search pattern computed by the locator, and every
body the renderer produces for an environment is selected by a locate
over that body with the same environment. -/
theorem renderer_locator_header_agreement :
    (∀ environment, rendererHeader environment = locatorSearchPattern environment)
    ∧ (∀ (ds : List Deployment) (environment commitSha : String) (ctx : GitHubContext)
        (body : String) (cid : Nat),
        generateCommentBody ds environment commitSha ctx = some body →
        (findExistingComment (.ok [⟨cid, some body⟩]) environment).1 = some ⟨cid, some body⟩) := by
  refine ⟨fun _ => rfl, ?_⟩
  intro ds e cs ctx body cid hgen
  unfold generateCommentBody at hgen
  cases hrs : renderSections ds with
  | none => rw [hrs] at hgen; cases hgen
  | some s =>
    rw [hrs] at hgen
    injection hgen with hgen
    have hmatch : commentMatches (locatorSearchPattern e) ⟨cid, some body⟩ = true := by
      show jsStartsWith body (locatorSearchPattern e) = true
      refine jsStartsWith_of_eq _ _
        ("\n\n" ++ (metadataText cs ctx ++ ("\n\n" ++ (s ++ footerText)))) ?_
      rw [← hgen]
      simp only [String.append_assoc]
      rfl
    show ([(⟨cid, some body⟩ : IssueComment)]).find?
      (commentMatches (locatorSearchPattern e)) = some ⟨cid, some body⟩
    rw [List.find?_cons_of_pos _ hmatch]

/-- Witness for C2 at a concrete rendered body. -/
theorem renderer_locator_header_agreement_witness :
    rendererHeader "production" = locatorSearchPattern "production"
    ∧ (findExistingComment
        (.ok [⟨7, generateCommentBody wDeployments "production" "abc1234" sampleContext⟩])
        "production").1 =
      some ⟨7, generateCommentBody wDeployments "production" "abc1234" sampleContext⟩ :=
  ⟨renderer_locator_header_agreement.1 "production",
    renderer_locator_header_agreement.2 wDeployments "production" "abc1234" sampleContext _ 7 rfl⟩

/-- C3: neither environment header is a prefix of the other, and a locate
for one environment never selects a comment whose body carries the other
environment header. -/
theorem locate_never_crossmatches :
    (jsStartsWith (locatorSearchPattern "production") (locatorSearchPattern "preview") = false
      ∧ jsStartsWith (locatorSearchPattern "preview") (locatorSearchPattern "production") = false)
    ∧ ∀ (cs : List IssueComment) (c : IssueComment) (b : String), c.body = some b →
        (((findExistingComment (.ok cs) "preview").1 = some c →
            jsStartsWith b (locatorSearchPattern "production") = false)
          ∧ ((findExistingComment (.ok cs) "production").1 = some c →
            jsStartsWith b (locatorSearchPattern "preview") = false)) := by
  refine ⟨⟨by decide, by decide⟩, ?_⟩
  intro cs c b hb
  constructor
  · intro hfind
    cases hprod : jsStartsWith b (locatorSearchPattern "production") with
    | false => rfl
    | true =>
      exfalso
      have hmatch := List.find?_some hfind
      obtain ⟨b', hb', hsw⟩ := (commentMatches_eq_true_iff _ _).mp hmatch
      rw [hb] at hb'
      injection hb' with hb'
      subst hb'
      exact not_both_headers b hprod hsw
  · intro hfind
    cases hprev : jsStartsWith b (locatorSearchPattern "preview") with
    | false => rfl
    | true =>
      exfalso
      have hmatch := List.find?_some hfind
      obtain ⟨b', hb', hsw⟩ := (commentMatches_eq_true_iff _ _).mp hmatch
      rw [hb] at hb'
      injection hb' with hb'
      subst hb'
      exact not_both_headers b hsw hprev

/-- Witness for C3 at a concrete production-headed comment. -/
theorem locate_never_crossmatches_witness :
    jsStartsWith (locatorSearchPattern "production") (locatorSearchPattern "preview") = false
    ∧ ((findExistingComment
        (.ok [⟨1, some "## 🚀 Vercel Production Deployments\n\nrest"⟩]) "preview").1 =
          some ⟨1, some "## 🚀 Vercel Production Deployments\n\nrest"⟩ →
        jsStartsWith "## 🚀 Vercel Production Deployments\n\nrest"
          (locatorSearchPattern "production") = false) :=
  ⟨locate_never_crossmatches.1.1,
    (locate_never_crossmatches.2 [⟨1, some "## 🚀 Vercel Production Deployments\n\nrest"⟩]
      ⟨1, some "## 🚀 Vercel Production Deployments\n\nrest"⟩
      "## 🚀 Vercel Production Deployments\n\nrest" rfl).1⟩

/-- C4: a fetch failure is swallowed, logged and yields no match; over a
fetched list the locator returns none exactly when no comment has a body
starting with the environment header, and a returned comment is the first
matching one, every earlier comment (including ones with null or absent
bodies) being a non-match. -/
theorem findExistingComment_spec :
    (∀ m environment, findExistingComment (.error m) environment =
        (none, ["Could not fetch existing comments: " ++ m]))
    ∧ (∀ (cs : List IssueComment) environment,
        ((findExistingComment (.ok cs) environment).1 = none ↔
          ∀ c ∈ cs, ¬ MatchedBy environment c))
    ∧ (∀ (cs : List IssueComment) environment c,
        (findExistingComment (.ok cs) environment).1 = some c →
          MatchedBy environment c
          ∧ ∃ pre post, cs = pre ++ c :: post ∧ ∀ x ∈ pre, ¬ MatchedBy environment x) := by
  refine ⟨fun m environment => rfl, ?_, ?_⟩
  · intro cs environment
    show cs.find? (commentMatches (locatorSearchPattern environment)) = none ↔ _
    rw [List.find?_eq_none]
    constructor
    · intro h c hc hmatch
      exact h c hc ((commentMatches_eq_true_iff _ _).mpr hmatch)
    · intro h c hc hmatch
      exact h c hc ((commentMatches_eq_true_iff _ _).mp hmatch)
  · intro cs environment c hfind
    obtain ⟨hc, pre, post, rfl, hpre⟩ := find?_first _ cs c hfind
    refine ⟨(commentMatches_eq_true_iff _ _).mp hc, pre, post, rfl, ?_⟩
    intro x hx hmatch
    have := hpre x hx
    rw [(commentMatches_eq_true_iff _ _).mpr hmatch] at this
    cases this

/-- Witness for C4 at a concrete failed fetch. -/
theorem findExistingComment_spec_witness :
    findExistingComment (.error "boom") "preview" =
      (none, ["Could not fetch existing comments: boom"]) :=
  findExistingComment_spec.1 "boom" "preview"

/-- C5: the rendered body is a pure function of the deployment list, the
environment, the commit SHA input and the ambient commit metadata, hence
byte-identical across calls with identical such inputs. -/
theorem generateCommentBody_deterministic :
    ∀ (ds : List Deployment) (environment commitSha : String) (ctx₁ ctx₂ : GitHubContext),
      ctx₁.sha = ctx₂.sha → ctx₁.ref = ctx₂.ref →
      generateCommentBody ds environment commitSha ctx₁ =
        generateCommentBody ds environment commitSha ctx₂ := by
  intro ds e cs ctx₁ ctx₂ h1 h2
  cases ctx₁ with
  | mk sha₁ ref₁ =>
    cases ctx₂ with
    | mk sha₂ ref₂ =>
      obtain rfl : sha₁ = sha₂ := h1
      obtain rfl : ref₁ = ref₂ := h2
      rfl

/-- Witness for C5 at a concrete input. -/
theorem generateCommentBody_deterministic_witness :
    generateCommentBody wDeployments "preview" "abc1234" sampleContext =
      generateCommentBody wDeployments "preview" "abc1234" sampleContext :=
  generateCommentBody_deterministic wDeployments "preview" "abc1234"
    sampleContext sampleContext rfl rfl

/-- C9: with no pull request in the triggering context, `run` logs the
skip message, issues no API call and succeeds. -/
theorem run_skips_without_pull_request :
    ∀ env : RunEnv, env.pullRequest = none →
      run env = ⟨.success, [],
        ["Running Nexus Vercel Summary action",
          "Environment: " ++ (if env.environmentInput = "" then "preview" else env.environmentInput),
          "Not a pull request event, skipping comment"]⟩ := by
  intro env h
  unfold run
  rw [h]
  rfl

/-- Witness for C9 at a concrete environment. -/
theorem run_skips_without_pull_request_witness :
    sampleEnvNoPR.pullRequest = none
    ∧ run sampleEnvNoPR = ⟨.success, [],
        ["Running Nexus Vercel Summary action", "Environment: preview",
          "Not a pull request event, skipping comment"]⟩ :=
  ⟨rfl, run_skips_without_pull_request sampleEnvNoPR rfl⟩

/-- C10: any environment other than the literal string production is
treated exactly as preview by both the renderer and the locator. -/
theorem environment_falls_back_to_preview :
    ∀ e : String, e ≠ "production" →
      (∀ (ds : List Deployment) (commitSha : String) (ctx : GitHubContext),
        generateCommentBody ds e commitSha ctx = generateCommentBody ds "preview" commitSha ctx)
      ∧ (∀ r, findExistingComment r e = findExistingComment r "preview")
      ∧ rendererHeader e = "## 🔍 Vercel Preview Deployments"
      ∧ locatorSearchPattern e = "## 🔍 Vercel Preview Deployments" := by
  intro e he
  have hr : rendererHeader e = "## 🔍 Vercel Preview Deployments" := by
    unfold rendererHeader rendererEnvEmoji rendererEnvName
    rw [if_neg he, if_neg he]
    rfl
  have hl : locatorSearchPattern e = "## 🔍 Vercel Preview Deployments" := by
    unfold locatorSearchPattern locatorEnvEmoji locatorEnvName
    rw [if_neg he, if_neg he]
    rfl
  refine ⟨?_, ?_, hr, hl⟩
  · intro ds cs ctx
    unfold generateCommentBody
    rw [hr]
    rfl
  · intro r
    cases r with
    | error m => rfl
    | ok comments =>
      unfold findExistingComment
      rw [hl]
      rfl

/-- Witness for C10 at the environment string staging. -/
theorem environment_falls_back_to_preview_witness :
    rendererHeader "staging" = "## 🔍 Vercel Preview Deployments"
    ∧ generateCommentBody wDeployments "staging" "abc1234" sampleContext =
        generateCommentBody wDeployments "preview" "abc1234" sampleContext :=
  ⟨(environment_falls_back_to_preview "staging" (by decide)).2.2.1,
    (environment_falls_back_to_preview "staging" (by decide)).1 wDeployments "abc1234" sampleContext⟩

lemma jsToLower_eq_empty_iff (s : String) : jsToLower s = "" ↔ s = "" := by
  constructor
  · intro h
    have h2 : s.data.map Char.toLower = ([] : List Char) := congrArg String.data h
    exact String.ext (List.map_eq_nil_iff.mp h2)
  · intro h
    subst h
    rfl

lemma jsTruthy_some_eq (s₁ s₂ : String) (h : jsToLower s₁ = jsToLower s₂) :
    jsTruthy (some s₁) = jsTruthy (some s₂) := by
  have h1 : s₁ = "" ↔ s₂ = "" := by
    rw [← jsToLower_eq_empty_iff s₁, ← jsToLower_eq_empty_iff s₂, h]
  by_cases hc : s₁ = ""
  · have hc2 := h1.mp hc
    simp [jsTruthy, hc, hc2]
  · have hc2 : ¬ s₂ = "" := fun g => hc (h1.mpr g)
    simp [jsTruthy, hc, hc2]

lemma caseVariant_section (d₁ d₂ : Deployment) (h : deploymentCaseVariant d₁ d₂) :
    deploymentSection d₁ = deploymentSection d₂ := by
  obtain ⟨hn, hu, hs⟩ := h
  cases h₁ : d₁.status with
  | none =>
    cases h₂ : d₂.status with
    | none => simp [deploymentSection, h₁, h₂]
    | some s₂ => rw [h₁, h₂] at hs; exact False.elim hs
  | some s₁ =>
    cases h₂ : d₂.status with
    | none => rw [h₁, h₂] at hs; exact False.elim hs
    | some s₂ =>
      rw [h₁, h₂] at hs
      have hs' : jsToLower s₁ = jsToLower s₂ := hs
      unfold deploymentSection
      rw [h₁, h₂]
      simp only [hn, hu, hs']

lemma caseVariant_validate_isOk (i : Nat) (d₁ d₂ : Deployment)
    (h : deploymentCaseVariant d₁ d₂) :
    (validateDeployment i d₁).isOk = (validateDeployment i d₂).isOk := by
  obtain ⟨hn, hu, hs⟩ := h
  cases h₁ : d₁.status with
  | none =>
    cases h₂ : d₂.status with
    | none =>
      unfold validateDeployment
      rw [hn, h₁, h₂]
    | some s₂ => rw [h₁, h₂] at hs; exact False.elim hs
  | some s₁ =>
    cases h₂ : d₂.status with
    | none => rw [h₁, h₂] at hs; exact False.elim hs
    | some s₂ =>
      rw [h₁, h₂] at hs
      have hs' : jsToLower s₁ = jsToLower s₂ := hs
      have hst : jsTruthy (some s₁) = jsTruthy (some s₂) := jsTruthy_some_eq s₁ s₂ hs'
      unfold validateDeployment
      rw [hn, h₁, h₂]
      simp only [Option.getD_some, hst, hs']
      cases hname : jsTruthy d₂.name with
      | false => simp [hname, Except.isOk, Except.toBool]
      | true =>
        cases hstat : jsTruthy (some s₂) with
        | false => simp [hname, hstat, Except.isOk, Except.toBool]
        | true =>
          by_cases hmem : jsToLower s₂ ∈ validStatuses
          · simp [hname, hstat, hmem]
          · simp [hname, hstat, hmem, Except.isOk, Except.toBool]

lemma caseVariant_validateDeployments (ds₁ ds₂ : List Deployment)
    (h : List.Forall₂ deploymentCaseVariant ds₁ ds₂) :
    ∀ i, (validateDeployments ds₁ i).isOk = (validateDeployments ds₂ i).isOk := by
  induction h with
  | nil => intro i; rfl
  | @cons a b l₁ l₂ h₁ h₂ ih =>
    intro i
    simp only [validateDeployments]
    have hok := caseVariant_validate_isOk i a b h₁
    cases hv₁ : validateDeployment i a with
    | error m =>
      rw [hv₁] at hok
      cases hv₂ : validateDeployment i b with
      | error m₂ => rfl
      | ok u =>
        rw [hv₂] at hok
        simp [Except.isOk, Except.toBool] at hok
    | ok u =>
      rw [hv₁] at hok
      cases hv₂ : validateDeployment i b with
      | error m₂ =>
        rw [hv₂] at hok
        simp [Except.isOk, Except.toBool] at hok
      | ok u₂ => exact ih (i + 1)

lemma caseVariant_renderSections (ds₁ ds₂ : List Deployment)
    (h : List.Forall₂ deploymentCaseVariant ds₁ ds₂) :
    renderSections ds₁ = renderSections ds₂ := by
  induction h with
  | nil => rfl
  | @cons a b l₁ l₂ h₁ h₂ ih =>
    simp only [renderSections, caseVariant_section a b h₁, ih]

/-- C7: two deployment lists equal up to the casing of their status words
validate with the same outcome and render to byte-identical bodies. -/
theorem status_case_insensitive :
    ∀ (ds₁ ds₂ : List Deployment), List.Forall₂ deploymentCaseVariant ds₁ ds₂ →
      (∀ i, (validateDeployments ds₁ i).isOk = (validateDeployments ds₂ i).isOk)
      ∧ ∀ (environment commitSha : String) (ctx : GitHubContext),
          generateCommentBody ds₁ environment commitSha ctx =
            generateCommentBody ds₂ environment commitSha ctx := by
  intro ds₁ ds₂ h
  refine ⟨caseVariant_validateDeployments ds₁ ds₂ h, ?_⟩
  intro e cs ctx
  unfold generateCommentBody
  rw [caseVariant_renderSections ds₁ ds₂ h]

/-- Case variant of `wDeployments` with recased status words. -/
def wUpperDeployments : List Deployment :=
  [⟨some "Frontend", some "SUCCESSFUL", some "https://f.example"⟩,
   ⟨some "API", some "Building", none⟩,
   ⟨some "Docs", some "FaIlEd", none⟩]

/-- Witness for C7 at a concrete recased list. -/
theorem status_case_insensitive_witness :
    List.Forall₂ deploymentCaseVariant wUpperDeployments wDeployments
    ∧ (validateDeployments wUpperDeployments 0).isOk = (validateDeployments wDeployments 0).isOk
    ∧ generateCommentBody wUpperDeployments "preview" "abc1234" sampleContext =
        generateCommentBody wDeployments "preview" "abc1234" sampleContext := by
  have hrel : List.Forall₂ deploymentCaseVariant wUpperDeployments wDeployments := by
    refine .cons ⟨rfl, rfl, ?_⟩ (.cons ⟨rfl, rfl, ?_⟩ (.cons ⟨rfl, rfl, ?_⟩ .nil))
    · show jsToLower "SUCCESSFUL" = jsToLower "successful"
      decide
    · show jsToLower "Building" = jsToLower "building"
      decide
    · show jsToLower "FaIlEd" = jsToLower "failed"
      decide
  exact ⟨hrel, (status_case_insensitive _ _ hrel).1 0,
    (status_case_insensitive _ _ hrel).2 "preview" "abc1234" sampleContext⟩

/-- C8: with a pull request present, every malformed deployments input
fails the run with the documented message and no API call is issued; the
validation loop succeeds exactly on lists of valid deployments; and each
per-deployment failure message names the offending index, field or value,
as in the concrete rejection of the status word pending. -/
theorem validation_gates_run :
    (∀ (env : RunEnv) (pr : Nat), env.pullRequest = some pr →
      (∀ m, env.deploymentsInput = .error m →
        (run env).outcome = .failed ("Action failed: Invalid deployments JSON: " ++ m)
        ∧ (run env).apiCalls = [])
      ∧ (env.deploymentsInput = .ok .nonArray →
        (run env).outcome = .failed "Action failed: deployments must be a non-empty array"
        ∧ (run env).apiCalls = [])
      ∧ (env.deploymentsInput = .ok (.arr []) →
        (run env).outcome = .failed "Action failed: deployments must be a non-empty array"
        ∧ (run env).apiCalls = [])
      ∧ (∀ ds m, env.deploymentsInput = .ok (.arr ds) → validateDeployments ds 0 = .error m →
        (run env).outcome = .failed ("Action failed: " ++ m) ∧ (run env).apiCalls = []))
    ∧ (∀ (ds : List Deployment) i, validateDeployments ds i = .ok () ↔ ∀ d ∈ ds, ValidDeployment d)
    ∧ (∀ i (d : Deployment), jsTruthy d.name = false →
        validateDeployment i d =
          .error ("Deployment at index " ++ toString i ++ " missing required field: name"))
    ∧ (∀ i (d : Deployment), jsTruthy d.name = true → jsTruthy d.status = false →
        validateDeployment i d =
          .error ("Deployment at index " ++ toString i ++ " missing required field: status"))
    ∧ (∀ i (d : Deployment), jsTruthy d.name = true → jsTruthy d.status = true →
        validStatuses.contains (jsToLower (d.status.getD "")) = false →
        validateDeployment i d =
          .error ("Deployment \"" ++ d.name.getD "" ++ "\" has invalid status: "
            ++ d.status.getD "" ++ ". Must be one of: " ++ "building, failed, successful"))
    ∧ validateDeployment 0 ⟨some "API", some "pending", none⟩ =
        .error "Deployment \"API\" has invalid status: pending. Must be one of: building, failed, successful" := by
  refine ⟨?_, validateDeployments_ok_iff, ?_, ?_, ?_, rfl⟩
  · intro env pr hpr
    refine ⟨?_, ?_, ?_, ?_⟩
    · intro m hin
      unfold run
      rw [hpr, hin]
      constructor <;> trivial
    · intro hin
      unfold run
      rw [hpr, hin]
      constructor <;> trivial
    · intro hin
      unfold run
      rw [hpr, hin]
      constructor <;> trivial
    · intro ds m hin hval
      cases ds with
      | nil => simp [validateDeployments] at hval
      | cons d rest =>
        unfold run
        rw [hpr, hin]
        simp only [List.isEmpty_cons, Bool.false_eq_true, if_false, hval]
        constructor <;> trivial
  · intro i d hname
    unfold validateDeployment
    rw [hname]
    rfl
  · intro i d hname hstatus
    unfold validateDeployment
    rw [hname, hstatus]
    rfl
  · intro i d hname hstatus hcont
    unfold validateDeployment
    rw [hname, hstatus, hcont]
    rfl

/-- Witness for C8 at a concrete environment with unparseable input. -/
theorem validation_gates_run_witness :
    sampleEnvBadJson.pullRequest = some 5
    ∧ sampleEnvBadJson.deploymentsInput = .error "Unexpected token"
    ∧ (run sampleEnvBadJson).outcome =
        .failed "Action failed: Invalid deployments JSON: Unexpected token"
    ∧ (run sampleEnvBadJson).apiCalls = [] := by
  have h := (validation_gates_run.1 sampleEnvBadJson 5 rfl).1 "Unexpected token" rfl
  exact ⟨rfl, rfl, h.1, h.2⟩

lemma listContains_cons_of_tail (c : Char) (l pat : List Char)
    (h : listContains l pat = true) : listContains (c :: l) pat = true := by
  simp [listContains, h]

lemma listContains_append_middle : ∀ (l₁ p l₂ : List Char), listContains (l₁ ++ p ++ l₂) p = true := by
  intro l₁ p l₂
  induction l₁ with
  | nil =>
    cases p with
    | nil =>
      cases l₂ with
      | nil => rfl
      | cons c t => simp [listContains, List.isPrefixOf]
    | cons a p₀ =>
      simp only [List.nil_append, List.cons_append, listContains, List.isPrefixOf,
        beq_self_eq_true, Bool.true_and]
      show (p₀.isPrefixOf (p₀ ++ l₂) || listContains (p₀ ++ l₂) (a :: p₀)) = true
      rw [isPrefixOf_append_self, Bool.true_or]
  | cons c l₀ ih =>
    show listContains ((c :: l₀) ++ p ++ l₂) p = true
    rw [List.cons_append, List.cons_append]
    exact listContains_cons_of_tail _ _ _ ih

lemma jsIncludes_middle (a p b : String) : jsIncludes (a ++ p ++ b) p = true := by
  unfold jsIncludes
  rw [String.data_append, String.data_append]
  exact listContains_append_middle _ _ _

lemma listContains_two_split (a b : Char) :
    ∀ (l₁ l₂ : List Char), listContains (l₁ ++ l₂) [a, b] = true →
      listContains l₁ [a, b] = true ∨ listContains l₂ [a, b] = true
        ∨ (l₁.getLast? = some a ∧ l₂.head? = some b) := by
  intro l₁
  induction l₁ with
  | nil =>
    intro l₂ h
    right; left
    simpa using h
  | cons c l₀ ih =>
    intro l₂ h
    rw [List.cons_append] at h
    simp only [listContains] at h
    rw [Bool.or_eq_true] at h
    rcases h with h | h
    · obtain ⟨t, ht⟩ := (isPrefixOf_eq_true_iff _ _).mp h
      injection ht with h1 ht
      cases l₀ with
      | nil =>
        right; right
        simp only [List.nil_append] at ht
        constructor
        · simp [h1]
        · rw [ht]; rfl
      | cons d l₁ =>
        left
        rw [List.cons_append] at ht
        injection ht with h2 ht2
        subst h1
        subst h2
        simp [listContains, List.isPrefixOf]
    · rcases ih l₂ h with h | h | ⟨hlast, hhead⟩
      · left
        exact listContains_cons_of_tail _ _ _ h
      · right; left; exact h
      · right; right
        refine ⟨?_, hhead⟩
        cases l₀ with
        | nil => simp at hlast
        | cons d t₀ =>
          rw [List.getLast?_cons_cons]
          exact hlast

lemma plain_success_block_link_free (s : String) (h : jsIncludes s "](" = false) :
    jsIncludes ("### ✅ " ++ s ++ "\n**Deployment Successful**\n\n") "](" = false := by
  cases hc : listContains ("### ✅ " ++ s ++ "\n**Deployment Successful**\n\n").data "](".data with
  | false => exact hc
  | true =>
    exfalso
    rw [show ("### ✅ " ++ s ++ "\n**Deployment Successful**\n\n").data
        = "### ✅ ".data ++ (s.data ++ "\n**Deployment Successful**\n\n".data) from by
          simp [String.data_append, List.append_assoc]] at hc
    rw [show ("](").data = [']', '('] from rfl] at hc
    rcases listContains_two_split ']' '(' _ _ hc with h1 | h1 | ⟨h1, h2⟩
    · exact absurd h1 (by decide)
    · rcases listContains_two_split ']' '(' _ _ h1 with h2 | h2 | ⟨h2, h3⟩
      · have hinc : jsIncludes s "](" = true := h2
        rw [h] at hinc
        cases hinc
      · exact absurd h2 (by decide)
      · exact absurd h3 (by decide)
    · exact absurd h1 (by decide)

/-- The body rendered for a single successful deployment without a URL,
at the sample context. -/
def cexBody : String :=
  "## 🔍 Vercel Preview Deployments\n\nmain • abc1234\n\n### ✅ App1\n**Deployment Successful**\n\n---\n\n<sub>Deployed with [Vercel](https://vercel.com)</sub>"

/-- C6 counterexample: a validated successful deployment without a URL
contributes the plain success subsection, yet the full rendered output
still contains link markdown, namely the fixed footer Vercel credit. -/
theorem no_url_output_still_has_link_markdown :
    deploymentSection ⟨some "App1", some "successful", none⟩ =
      some "### ✅ App1\n**Deployment Successful**\n\n"
    ∧ validateDeployments [⟨some "App1", some "successful", none⟩] 0 = .ok ()
    ∧ generateCommentBody [⟨some "App1", some "successful", none⟩] "preview" "abc1234"
        sampleContext = some cexBody
    ∧ jsIncludes cexBody "](" = true
    ∧ jsIncludes cexBody "[Vercel](https://vercel.com)" = true :=
  ⟨rfl, rfl, rfl, by decide, by decide⟩

/-- C6 amended: a successful deployment with a URL contributes the exact
link line containing that URL; one without a URL contributes the plain
success text, and its subsection (unlike the full output, whose fixed
footer credit is itself a link) contains no link markdown whenever the
name contains none. -/
theorem successful_section_link_spec :
    ∀ (name url : String),
      (url ≠ "" →
        deploymentSection ⟨some name, some "successful", some url⟩ =
          some ("### ✅ " ++ jsOr (some name) "App"
            ++ "\n🔗 **[Visit Deployment](" ++ url ++ ")**\n\n")
        ∧ jsIncludes ("### ✅ " ++ jsOr (some name) "App"
            ++ "\n🔗 **[Visit Deployment](" ++ url ++ ")**\n\n") url = true)
      ∧ deploymentSection ⟨some name, some "successful", none⟩ =
          some ("### ✅ " ++ jsOr (some name) "App" ++ "\n**Deployment Successful**\n\n")
      ∧ (name ≠ "" → jsIncludes name "](" = false →
          jsIncludes ("### ✅ " ++ jsOr (some name) "App"
            ++ "\n**Deployment Successful**\n\n") "](" = false)
      ∧ jsIncludes footerText "](" = true := by
  intro name url
  refine ⟨?_, ?_, ?_, by decide⟩
  · intro hu
    have hu2 : jsTruthy (some url) = true := by simp [jsTruthy, hu]
    constructor
    · unfold deploymentSection
      simp only [show jsToLower "successful" = "successful" from rfl, String.reduceEq,
        reduceIte, hu2, if_true, Option.getD_some]
    · exact jsIncludes_middle _ url _
  · unfold deploymentSection
    simp only [show jsToLower "successful" = "successful" from rfl, String.reduceEq,
      reduceIte, jsTruthy, Bool.false_eq_true, if_false]
  · intro hn hfree
    have hname : jsOr (some name) "App" = name := by simp [jsOr, jsTruthy, hn]
    rw [hname]
    exact plain_success_block_link_free name hfree

/-- Witness for the amended C6 at a concrete name and URL. -/
theorem successful_section_link_spec_witness :
    deploymentSection ⟨some "App1", some "successful", some "https://x.example"⟩ =
      some ("### ✅ " ++ jsOr (some "App1") "App"
        ++ "\n🔗 **[Visit Deployment](" ++ "https://x.example" ++ ")**\n\n")
    ∧ jsIncludes "App1" "](" = false
    ∧ jsIncludes ("### ✅ " ++ jsOr (some "App1") "App"
        ++ "\n**Deployment Successful**\n\n") "](" = false :=
  ⟨((successful_section_link_spec "App1" "https://x.example").1 (by decide)).1,
    by decide,
    (successful_section_link_spec "App1" "https://x.example").2.2.1 (by decide) (by decide)⟩

end VercelSummary
